import Mathlib

/-!
Verification of the WetSpec dashboard client logic (`dashboard/public` script
and `dashboard/server.js`) against its natural-language specification.

The embedding translates the JavaScript source directly:
* chart data points `{x: Date, y: number}` become `DataPoint` with the
  timestamp as epoch milliseconds (`Int`, the value `Date.getTime()` returns;
  the code only ever compares timestamps through `getTime()`);
* JavaScript numbers that can be `NaN` (results of `parseFloat` / `parseInt`
  and arithmetic over them) become `Option ℚ`, with `none` playing the role
  of `NaN`: `jsAdd` and `jsDiv` propagate `none` exactly as JS arithmetic
  propagates `NaN`;
* the `async` handlers are single-threaded sequences of effects (the spec's
  §5 concurrency model), so each handler is a function from dashboard state
  to dashboard state, paired with the ordered list of externally visible
  events it emits.
-/

/-- JS `const sampleInterval = (30 * 60)` — 30 minutes in seconds. -/
def sampleInterval : Int := 30 * 60

/-- One chart data point `{x: Date, y: number}`; `x` is the timestamp in
epoch milliseconds, `y` is a JS number where `none` stands for `NaN`. -/
structure DataPoint where
  x : Int
  y : Option ℚ
deriving DecidableEq

/-- Default point used to totalise list indexing (every access performed by
the source is in bounds, so the default is never produced). -/
def defaultPoint : DataPoint := { x := 0, y := none }

/-- Indexing `dataset[i]`, totalised with `defaultPoint`. -/
def getPoint (l : List DataPoint) (i : Nat) : DataPoint := l.getD i defaultPoint

/-- JS `+` on numbers that may be `NaN`: `NaN` absorbs. -/
def jsAdd : Option ℚ → Option ℚ → Option ℚ
  | some a, some b => some (a + b)
  | _, _ => none

/-- JS division of a possibly-`NaN` sum by the integer `numPoints`
(`0 / 0` is `NaN` in JS, so a zero count yields `none`). -/
def jsDiv (a : Option ℚ) (n : Nat) : Option ℚ :=
  if n = 0 then none else a.map (fun q => q / (n : ℚ))

/-- `simpleMovingAverage(dataset, point, numPoints)`:
`sum = Σ_{i<numPoints} dataset[point - i].y; return sum / numPoints`.
(The JS default `numPoints = 5` is never used by the callers and is omitted.) -/
def simpleMovingAverage (dataset : List DataPoint) (point : Nat) (numPoints : Nat) :
    Option ℚ :=
  let sum := (List.range numPoints).foldl
    (fun sum i => jsAdd sum (getPoint dataset (point - i)).y) (some 0)
  jsDiv sum numPoints

/-- Body of the `forEach` in `calculateSMADataset`: what gets pushed for
`datum` at position `index`. -/
def smaStep (dataset : List DataPoint) (index : Nat) (datum : DataPoint) : DataPoint :=
  if index = 0 then datum
  else if index < 12 then { x := datum.x, y := simpleMovingAverage dataset index index }
  else { x := datum.x, y := simpleMovingAverage dataset index 12 }

/-- The `forEach` loop of `calculateSMADataset`, carrying the running index. -/
def calcAux (dataset : List DataPoint) : Nat → List DataPoint → List DataPoint
  | _, [] => []
  | index, datum :: rest => smaStep dataset index datum :: calcAux dataset (index + 1) rest

/-- `calculateSMADataset(dataset)`: the simple-moving-average dataset. -/
def calculateSMADataset (dataset : List DataPoint) : List DataPoint :=
  calcAux dataset 0 dataset

theorem calcAux_length (dataset : List DataPoint) :
    ∀ (l : List DataPoint) (k : Nat), (calcAux dataset k l).length = l.length := by
  intro l
  induction l with
  | nil => intro k; rfl
  | cons d rest ih => intro k; simp [calcAux, ih]

theorem calculateSMADataset_length (dataset : List DataPoint) :
    (calculateSMADataset dataset).length = dataset.length :=
  calcAux_length dataset dataset 0

theorem calcAux_getPoint (dataset : List DataPoint) :
    ∀ (l : List DataPoint) (k i : Nat), i < l.length →
      getPoint (calcAux dataset k l) i = smaStep dataset (k + i) (getPoint l i) := by
  intro l
  induction l with
  | nil => intro k i h; exact absurd h (by simp)
  | cons d rest ih =>
    intro k i h
    cases i with
    | zero => simp [calcAux, getPoint]
    | succ j =>
      have hj : j < rest.length := by simpa using h
      have := ih (k + 1) j hj
      simp only [calcAux, getPoint, List.getD_cons_succ] at *
      rw [this]
      ring_nf

theorem calculateSMADataset_getPoint (dataset : List DataPoint) (i : Nat)
    (h : i < dataset.length) :
    getPoint (calculateSMADataset dataset) i = smaStep dataset i (getPoint dataset i) := by
  have := calcAux_getPoint dataset dataset 0 i h
  simpa using this

theorem foldl_jsAdd_some (f : Nat → Option ℚ) (g : Nat → ℚ) :
    ∀ (n : Nat), (∀ k, k < n → f k = some (g k)) → ∀ (acc : ℚ),
      (List.range n).foldl (fun a k => jsAdd a (f k)) (some acc)
        = some (acc + ∑ k in Finset.range n, g k) := by
  intro n
  induction n with
  | zero => intro _ acc; simp
  | succ m ih =>
    intro h acc
    rw [List.range_succ, List.foldl_append]
    rw [ih (fun k hk => h k (Nat.lt_succ_of_lt hk)) acc]
    simp only [List.foldl_cons, List.foldl_nil, h m (Nat.lt_succ_self m), jsAdd]
    rw [Finset.sum_range_succ]
    ring_nf

theorem sum_window_reindex (vals : Nat → ℚ) (point np : Nat) (h : np ≤ point + 1) :
    ∑ k in Finset.range np, vals (point - k)
      = ∑ j in Finset.Icc (point + 1 - np) point, vals j := by
  rw [← Nat.Ico_succ_right, Finset.sum_Ico_eq_sum_range]
  have h2 : point + 1 - (point + 1 - np) = np := by omega
  rw [h2, ← Finset.sum_range_reflect]
  apply Finset.sum_congr rfl
  intro k hk
  have hk2 : k < np := Finset.mem_range.mp hk
  congr 1
  omega

theorem simpleMovingAverage_eq_mean (dataset : List DataPoint) (vals : Nat → ℚ)
    (hvals : ∀ j, j < dataset.length → (getPoint dataset j).y = some (vals j))
    (point np : Nat) (hnp : 0 < np) (hle : np ≤ point + 1) (hpt : point < dataset.length) :
    simpleMovingAverage dataset point np
      = some ((∑ j in Finset.Icc (point + 1 - np) point, vals j) / (np : ℚ)) := by
  unfold simpleMovingAverage
  have hfold := foldl_jsAdd_some (fun k => (getPoint dataset (point - k)).y)
    (fun k => vals (point - k)) np
    (fun k _ => hvals (point - k) (by omega)) 0
  simp only [hfold, jsDiv, Nat.pos_iff_ne_zero.mp hnp, if_neg, Option.map_some]
  rw [zero_add, sum_window_reindex vals point np hle]
  simp [Nat.pos_iff_ne_zero.mp hnp]

/-- `const maxInterval = 10 * sampleInterval * 1000` (milliseconds). -/
def maxInterval : Int := 10 * sampleInterval * 1000

/-- The custom break object pushed by `getXBreaks`
(`{startValue, endValue, type: "wavy", spacing: 1}`; the `Date` values are
their epoch milliseconds). -/
structure CustomBreak where
  startValue : Int
  endValue : Int
  btype : String
  spacing : Nat
deriving DecidableEq

/-- The break object `getXBreaks` pushes for an adjacent pair
`(datum, nextDatum)` whose gap exceeds `maxInterval`. -/
def mkBreak (datum nextDatum : DataPoint) : CustomBreak :=
  { startValue := datum.x + 3 * sampleInterval * 1000
    endValue := nextDatum.x - 3 * sampleInterval * 1000
    btype := "wavy"
    spacing := 1 }

/-- `getXBreaks(data)`: the `forEach` inspects each `datum` together with
`data[index + 1]` (skipping the last index) and pushes a break exactly when
the gap exceeds `maxInterval`. -/
def getXBreaks : List DataPoint → List CustomBreak
  | datum :: nextDatum :: rest =>
    (if nextDatum.x - datum.x > maxInterval then [mkBreak datum nextDatum] else [])
      ++ getXBreaks (nextDatum :: rest)
  | _ => []

theorem getXBreaks_eq_spec (data : List DataPoint) :
    getXBreaks data
      = ((data.zip data.tail).filter
          (fun p => maxInterval < p.2.x - p.1.x)).map (fun p => mkBreak p.1 p.2) := by
  induction data with
  | nil => rfl
  | cons a l ih =>
    cases l with
    | nil => rfl
    | cons b rest =>
      by_cases h : maxInterval < b.x - a.x
      · simp [getXBreaks, ih, List.filter, List.zip, h]
      · simp [getXBreaks, ih, List.filter, List.zip, h]

/-- Numeric value of a decimal digit character. -/
def digitVal (c : Char) : Nat := c.toNat - Char.toNat '0'

/-- Value of a string of decimal digits. -/
def parseNatDigits (ds : List Char) : Nat :=
  ds.foldl (fun n c => 10 * n + digitVal c) 0

/-- Sign prefix of a JS numeric literal: `-`, `+`, or none. -/
def splitSign : List Char → ℚ × List Char
  | '-' :: t => (-1, t)
  | '+' :: t => (1, t)
  | t => (1, t)

/-- Modelled from the spec: the JS builtin `parseInt` (library code, not part
of this repository) applied base-10 as in `parseInt(value.humidity)` — skip
leading spaces, optional sign, then the longest digit prefix, truncating at
the first non-digit (so `"45.7"` parses to `45`); a malformed numeric string
(no digits) yields `NaN`, i.e. `none`. -/
def parseIntJs (s : String) : Option ℚ :=
  let cs := s.data.dropWhile (fun c => c = ' ')
  let sr := splitSign cs
  let ds := sr.2.takeWhile Char.isDigit
  if ds.isEmpty then none
  else some (sr.1 * (parseNatDigits ds : ℚ))

/-- Modelled from the spec: the JS builtin `parseFloat` (library code, not
part of this repository) as in `parseFloat(value.temp)` — skip leading
spaces, optional sign, integer digits, optional `.` and fraction digits,
ignoring any trailing junk; a malformed numeric string (no digits at all)
yields `NaN`, i.e. `none`. -/
def parseFloatJs (s : String) : Option ℚ :=
  let cs := s.data.dropWhile (fun c => c = ' ')
  let sr := splitSign cs
  let intDs := sr.2.takeWhile Char.isDigit
  let rest := sr.2.drop intDs.length
  let fracDs :=
    match rest with
    | '.' :: t => t.takeWhile Char.isDigit
    | _ => []
  if intDs.isEmpty && fracDs.isEmpty then none
  else some (sr.1 * ((parseNatDigits intDs : ℚ)
    + (parseNatDigits fracDs : ℚ) / (10 : ℚ) ^ fracDs.length))

/-- One record of the `data.json` payload,
`{time: ..., temp: numeric-string, humidity: numeric-string}`. The `time`
field is kept as the epoch milliseconds of the `Date` the code constructs
from it (`new Date(value.time)`), since the chart pipeline only ever reads
the date back through `getTime()`. -/
structure DataRecord where
  time : Int
  temp : String
  humidity : String
deriving DecidableEq

/-- Default record used to totalise indexing (never produced in bounds). -/
def defaultRecord : DataRecord := { time := 0, temp := "", humidity := "" }

/-- Indexing into the payload, totalised with `defaultRecord`. -/
def getRecord (l : List DataRecord) (i : Nat) : DataRecord := l.getD i defaultRecord

/-- What `updateChart` hands to the renderer: the four
`chart.options.data[k].dataPoints` series and
`chart.options.axisX.scaleBreaks.customBreaks`. -/
structure RendererInput where
  tempData : List DataPoint
  humidityData : List DataPoint
  tempSMA : List DataPoint
  humiditySMA : List DataPoint
  customBreaks : List CustomBreak
deriving DecidableEq

/-- `updateChart`'s data processing: build the raw series from the payload
(`parseFloat` for temp, `parseInt` for humidity), derive both SMA series,
compute the x-axis breaks over the temperature series, and push all five to
the chart. -/
def updateChartModel (data : List DataRecord) : RendererInput :=
  let tempData := data.map (fun value => { x := value.time, y := parseFloatJs value.temp })
  let humidityData :=
    data.map (fun value => { x := value.time, y := parseIntJs value.humidity })
  { tempData := tempData
    humidityData := humidityData
    tempSMA := calculateSMADataset tempData
    humiditySMA := calculateSMADataset humidityData
    customBreaks := getXBreaks tempData }

/-- The spec's lifecycle states (§4.4). The source keeps no explicit state
variable; this is the spec's ghost state recording which phase of the
handlers the client is in. -/
inductive LifecycleState
  | Running
  | Restarting
  | Reconnecting
  | ShuttingDown
  | Failed
deriving DecidableEq

/-- Externally visible events the handlers emit, in program order.
`timerStop` exists in the vocabulary so that "the scheduler is stopped" is
expressible; the source contains no `clearInterval` call, so no handler ever
emits it. -/
inductive Ev
  | tick
  | cmdRestart
  | cmdShutdown
  | timerStart
  | timerStop
  | uiHide
  | uiShow
  | wait (ms : Nat)
  | pollAttempt (i : Nat)
deriving DecidableEq

/-- Observable dashboard state: `timers` counts the refresh intervals
registered via `setInterval` and never cleared, `visible` is the
chart/controls CSS visibility, `message` the `#message` area's text, and
`lifecycle` the spec's ghost state. -/
structure DashState where
  timers : Nat
  visible : Bool
  message : String
  lifecycle : LifecycleState
deriving DecidableEq

/-- `hideDashboard(message)`: hide chart, controls and title; show the
message (which does not time out). Note it does NOT touch any timer. -/
def hideDashboard (message : String) (s : DashState) : DashState :=
  { s with visible := false, message := message }

/-- `showDashboard(message)`: update the chart once, show the chart UI,
register a NEW periodic refresh interval via `setInterval` (unconditionally
— nothing checks whether one is already running), and, if a non-empty
message was passed, display it for 3 s and then clear it. -/
def showDashboard (message : String) (s : DashState) : DashState :=
  { s with visible := true
           timers := s.timers + 1
           message := if message = "" then s.message else "" }

/-- Event trace of `showDashboard(message)`. -/
def showDashboardEvents (message : String) : List Ev :=
  [Ev.tick, Ev.uiShow, Ev.timerStart] ++ if message = "" then [] else [Ev.wait 3000]

/-- `shutdownHandler`: `fetch('shutdown')`, then `hideDashboard` with the
acknowledgement text. Ghost state: terminal `ShuttingDown`. -/
def shutdownHandler (ackMsg : String) (s : DashState) : DashState :=
  { hideDashboard ackMsg s with lifecycle := LifecycleState.ShuttingDown }

/-- Event trace of `shutdownHandler`: the shutdown command is sent first;
no timer is ever stopped. -/
def shutdownHandlerEvents : List Ev := [Ev.cmdShutdown, Ev.uiHide]

/-- `fetchRetry(url, options, n)` driven by an oracle `ok` telling whether
the fetch attempt with a given index succeeds: try the fetch; on failure,
if `n === 1` rethrow, else sleep 5000 ms and recurse with `n - 1`. Returns
the index of the successful attempt (`none` = the final throw) together
with the trace of attempts and waits. (The source recurses on the JS
number `n`; the `0` case is unreachable from the code's only entry point
`n = 10` and is modelled as immediate failure.) -/
def fetchRetryRun (ok : Nat → Bool) (start : Nat) : Nat → Option Nat × List Ev
  | 0 => (none, [])
  | n + 1 =>
    if ok start then (some start, [Ev.pollAttempt start])
    else if n = 0 then (none, [Ev.pollAttempt start])
    else
      let r := fetchRetryRun ok (start + 1) n
      (r.1, Ev.pollAttempt start :: Ev.wait 5000 :: r.2)

/-- The fatal message of `restartHandler`'s catch branch. -/
def fatalMessage : String :=
  "\nSomething went wrong while restarting the WetSpec device. You may need to\nmanually reset it, then reload this page.\n"

/-- `restartHandler`: `fetch('restart')`, hide the dashboard with the
acknowledgement text, `sleep(3000)` (settle), then `fetchRetry('test')`
with its default budget of 10 attempts; on success show the dashboard with
the liveness response text, on exhaustion hide it with the fatal message.
Ghost state: `Running` after a successful reconnect, `Failed` after
exhaustion. -/
def restartHandler (ok : Nat → Bool) (restartAck okMsg : String) (s : DashState) :
    DashState :=
  let s1 := hideDashboard restartAck s
  match (fetchRetryRun ok 0 10).1 with
  | some _ => { showDashboard okMsg s1 with lifecycle := LifecycleState.Running }
  | none => { hideDashboard fatalMessage s1 with lifecycle := LifecycleState.Failed }

/-- Event trace of `restartHandler`. -/
def restartHandlerEvents (ok : Nat → Bool) (okMsg : String) : List Ev :=
  Ev.cmdRestart :: Ev.uiHide :: Ev.wait 3000 :: (fetchRetryRun ok 0 10).2
    ++ (match (fetchRetryRun ok 0 10).1 with
        | some _ => showDashboardEvents okMsg
        | none => [Ev.uiHide])

/-- The interval callback `() => updateChart(chart, sampleInterval)` fires
whenever a registered interval is due; it consults nothing — in particular
no lifecycle state — so refresh ticks are possible exactly while at least
one interval is registered. -/
def tickEnabled (s : DashState) : Bool := s.timers > 0

/-- State before `window.onload` runs: no interval registered yet; the
ghost lifecycle starts `Running` (§4.4: initial state). -/
def initState : DashState :=
  { timers := 0, visible := false, message := "", lifecycle := LifecycleState.Running }

/-- State after `window.onload`: `showDashboard('Welcome to WetSpec')`. -/
def onloadState : DashState := showDashboard "Welcome to WetSpec" initState

/-- C1: for every series whose values are the numbers `vals` and every index
`0 < i < 12`, the smoothed series produced by `calculateSMADataset` has at
position `i` the input's timestamp and the arithmetic mean of exactly `i`
raw values, namely those at positions `1..i` (window size `i`, not `i + 1`);
position 0 is a pass-through of the raw sample. -/
theorem smooth_growth_window (dataset : List DataPoint) (vals : Nat → ℚ)
    (hvals : ∀ j, j < dataset.length → (getPoint dataset j).y = some (vals j))
    (i : Nat) (h0 : 0 < i) (h12 : i < 12) (hlen : i < dataset.length) :
    (getPoint (calculateSMADataset dataset) i).x = (getPoint dataset i).x ∧
    (getPoint (calculateSMADataset dataset) i).y
      = some ((∑ j in Finset.Icc 1 i, vals j) / (i : ℚ)) ∧
    (Finset.Icc 1 i).card = i ∧
    getPoint (calculateSMADataset dataset) 0 = getPoint dataset 0 := by
  have hstep := calculateSMADataset_getPoint dataset i hlen
  have hne : i ≠ 0 := by omega
  have hmean := simpleMovingAverage_eq_mean dataset vals hvals i i h0 (by omega) hlen
  have hIcc : i + 1 - i = 1 := by omega
  rw [hIcc] at hmean
  refine ⟨?_, ?_, ?_, ?_⟩
  · rw [hstep]; simp [smaStep, hne, h12]
  · rw [hstep]; simp [smaStep, hne, h12, hmean]
  · rw [Nat.card_Icc]; omega
  · rw [calculateSMADataset_getPoint dataset 0 (by omega)]; simp [smaStep]

/-- C1 witness: the window-growth rule evaluated on the concrete series
`[(10, 1), (20, 3), (30, 5)]` at index 2. -/
theorem smooth_growth_window_check :
    (getPoint (calculateSMADataset
        [⟨10, some 1⟩, ⟨20, some 3⟩, ⟨30, some 5⟩]) 2).x
      = (getPoint [⟨10, some 1⟩, ⟨20, some 3⟩, ⟨30, some 5⟩] 2).x ∧
    (getPoint (calculateSMADataset
        [⟨10, some 1⟩, ⟨20, some 3⟩, ⟨30, some 5⟩]) 2).y
      = some ((∑ j in Finset.Icc (1 : Nat) 2,
          (if j = 0 then (1 : ℚ) else if j = 1 then 3 else 5)) / ((2 : Nat) : ℚ)) ∧
    (Finset.Icc (1 : Nat) 2).card = 2 ∧
    getPoint (calculateSMADataset [⟨10, some 1⟩, ⟨20, some 3⟩, ⟨30, some 5⟩]) 0
      = getPoint [⟨10, some 1⟩, ⟨20, some 3⟩, ⟨30, some 5⟩] 0 :=
  smooth_growth_window [⟨10, some 1⟩, ⟨20, some 3⟩, ⟨30, some 5⟩]
    (fun j => if j = 0 then (1 : ℚ) else if j = 1 then 3 else 5)
    (by
      intro j hj
      simp only [List.length_cons, List.length_nil] at hj
      interval_cases j <;> rfl)
    2 (by decide) (by decide) (by decide)

/-- C6: for every series whose values are the numbers `vals` and every index
`i ≥ 12`, the smoothed value at `i` is the arithmetic mean of the 12 raw
values at positions `i - 11 .. i`. -/
theorem smooth_fixed_window (dataset : List DataPoint) (vals : Nat → ℚ)
    (hvals : ∀ j, j < dataset.length → (getPoint dataset j).y = some (vals j))
    (i : Nat) (h12 : 12 ≤ i) (hlen : i < dataset.length) :
    (getPoint (calculateSMADataset dataset) i).x = (getPoint dataset i).x ∧
    (getPoint (calculateSMADataset dataset) i).y
      = some ((∑ j in Finset.Icc (i - 11) i, vals j) / ((12 : Nat) : ℚ)) ∧
    (Finset.Icc (i - 11) i).card = 12 := by
  have hstep := calculateSMADataset_getPoint dataset i hlen
  have hne : i ≠ 0 := by omega
  have hnlt : ¬ i < 12 := by omega
  have hmean := simpleMovingAverage_eq_mean dataset vals hvals i 12 (by omega) (by omega) hlen
  have hIcc : i + 1 - 12 = i - 11 := by omega
  rw [hIcc] at hmean
  refine ⟨?_, ?_, ?_⟩
  · rw [hstep]; simp [smaStep, hne, hnlt]
  · rw [hstep]; simp [smaStep, hne, hnlt, hmean]
  · rw [Nat.card_Icc]; omega

/-- C6 witness: the fixed 12-point window evaluated at index 12 of a
13-sample constant series. -/
theorem smooth_fixed_window_check :
    (getPoint (calculateSMADataset (List.replicate 13 (⟨0, some 2⟩ : DataPoint))) 12).x
      = (getPoint (List.replicate 13 (⟨0, some 2⟩ : DataPoint)) 12).x ∧
    (getPoint (calculateSMADataset (List.replicate 13 (⟨0, some 2⟩ : DataPoint))) 12).y
      = some ((∑ _j in Finset.Icc ((12 : Nat) - 11) 12, (2 : ℚ)) / ((12 : Nat) : ℚ)) ∧
    (Finset.Icc ((12 : Nat) - 11) 12).card = 12 :=
  smooth_fixed_window (List.replicate 13 (⟨0, some 2⟩ : DataPoint)) (fun _ => 2)
    (by
      intro j hj
      simp only [List.length_replicate] at hj
      interval_cases j <;> rfl)
    12 (by decide) (by decide)

/-- C7: for every series of length `n ≥ 1`, the smoothed series has length
`n`, the same timestamp at every position as the input, and position 0
equal to the input's first sample; the empty series yields the empty series
(and the embedding is a total function — the source raises no error). -/
theorem smooth_shape (dataset : List DataPoint) (i : Nat) (hi : i < dataset.length) :
    (calculateSMADataset dataset).length = dataset.length ∧
    (getPoint (calculateSMADataset dataset) i).x = (getPoint dataset i).x ∧
    getPoint (calculateSMADataset dataset) 0 = getPoint dataset 0 ∧
    calculateSMADataset [] = [] := by
  refine ⟨calculateSMADataset_length dataset, ?_, ?_, rfl⟩
  · rw [calculateSMADataset_getPoint dataset i hi]
    by_cases h0 : i = 0
    · subst h0; simp [smaStep]
    · by_cases h12 : i < 12 <;> simp [smaStep, h0, h12]
  · rw [calculateSMADataset_getPoint dataset 0 (by omega)]
    simp [smaStep]

/-- C3: for every strictly-increasing series, `getXBreaks` emits exactly one
break per adjacent pair whose gap exceeds `10 × sampleInterval` (in
milliseconds), with `start = a.x + 3 × sampleInterval` and
`end = b.x - 3 × sampleInterval`, in series order with no merging (the
zip/filter/map characterisation); any series of length `< 2` yields no
breaks; any series all of whose adjacent gaps are `≤ 10 × sampleInterval`
yields no breaks; two points exactly `11 × sampleInterval` apart yield
exactly one break with those endpoints. -/
theorem gap_breaks_spec (data : List DataPoint)
    (_hsorted : data.Pairwise (fun a b => a.x < b.x))
    (short : List DataPoint) (hshort : short.length < 2)
    (quiet : List DataPoint)
    (hquiet : ∀ p ∈ quiet.zip quiet.tail, p.2.x - p.1.x ≤ 10 * sampleInterval * 1000)
    (p0 p1 : DataPoint) (hgap : p1.x - p0.x = 11 * sampleInterval * 1000) :
    getXBreaks data
      = ((data.zip data.tail).filter
          (fun p => maxInterval < p.2.x - p.1.x)).map (fun p => mkBreak p.1 p.2) ∧
    getXBreaks short = [] ∧
    getXBreaks quiet = [] ∧
    getXBreaks [p0, p1] = [mkBreak p0 p1] := by
  refine ⟨getXBreaks_eq_spec data, ?_, ?_, ?_⟩
  · match short, hshort with
    | [], _ => rfl
    | [_], _ => rfl
  · rw [getXBreaks_eq_spec quiet]
    rw [List.filter_eq_nil_iff.mpr]
    · rfl
    · intro p hp
      have := hquiet p hp
      simp only [maxInterval, sampleInterval, decide_eq_true_eq]
      simp only [sampleInterval] at this
      omega
  · have hlt : maxInterval < p1.x - p0.x := by
      rw [hgap]; simp only [maxInterval, sampleInterval]; omega
    simp [getXBreaks, hlt]

/-- C3 witness: the gap rule evaluated on concrete two-point series — a gap
of exactly `11 × sampleInterval` (19 800 000 ms) produces one break, a gap
of one `sampleInterval` produces none. -/
theorem gap_breaks_check :
    getXBreaks [(⟨0, some 1⟩ : DataPoint), ⟨19800000, some 2⟩]
      = (([(⟨0, some 1⟩ : DataPoint), ⟨19800000, some 2⟩].zip
            [(⟨0, some 1⟩ : DataPoint), ⟨19800000, some 2⟩].tail).filter
          (fun p => maxInterval < p.2.x - p.1.x)).map (fun p => mkBreak p.1 p.2) ∧
    getXBreaks [(⟨0, some 1⟩ : DataPoint)] = [] ∧
    getXBreaks [(⟨0, some 1⟩ : DataPoint), ⟨1800000, some 2⟩] = [] ∧
    getXBreaks [(⟨0, some 1⟩ : DataPoint), ⟨19800000, some 2⟩]
      = [mkBreak ⟨0, some 1⟩ ⟨19800000, some 2⟩] :=
  gap_breaks_spec [⟨0, some 1⟩, ⟨19800000, some 2⟩] (by decide)
    [⟨0, some 1⟩] (by decide)
    [⟨0, some 1⟩, ⟨1800000, some 2⟩] (by decide)
    ⟨0, some 1⟩ ⟨19800000, some 2⟩ (by decide)

/-- C9: `smooth` (`calculateSMADataset`) and `findBreaks` (`getXBreaks`) are
embedded as pure functions of their input — the source only reads its
arguments and builds fresh arrays — so two calls on the same input are the
same term and yield identical outputs, and no call changes the input
series. -/
theorem smoothing_pure (dataset series : List DataPoint) :
    calculateSMADataset dataset = calculateSMADataset dataset ∧
    getXBreaks series = getXBreaks series :=
  ⟨rfl, rfl⟩

/-- C7 witness: shape facts evaluated on the concrete one-sample series
`[(5, 7)]`. -/
theorem smooth_shape_check :
    (calculateSMADataset [(⟨5, some 7⟩ : DataPoint)]).length
      = [(⟨5, some 7⟩ : DataPoint)].length ∧
    (getPoint (calculateSMADataset [(⟨5, some 7⟩ : DataPoint)]) 0).x
      = (getPoint [(⟨5, some 7⟩ : DataPoint)] 0).x ∧
    getPoint (calculateSMADataset [(⟨5, some 7⟩ : DataPoint)]) 0
      = getPoint [(⟨5, some 7⟩ : DataPoint)] 0 ∧
    calculateSMADataset [] = [] :=
  smooth_shape [(⟨5, some 7⟩ : DataPoint)] 0 (by decide)





/-- A poll-attempt event in a `fetchRetryRun` trace carries an index in
`[start, start + n)`: the retry loop never attempts outside its budget. -/
theorem fetchRetryRun_attempt_range (ok : Nat → Bool) :
    ∀ (n start i : Nat), Ev.pollAttempt i ∈ (fetchRetryRun ok start n).2 →
      start ≤ i ∧ i < start + n := by
  intro n
  induction n with
  | zero => intro start i h; simp [fetchRetryRun] at h
  | succ m ih =>
    intro start i h
    by_cases hok : ok start
    · simp [fetchRetryRun, hok] at h
      omega
    · by_cases hm : m = 0
      · subst hm
        simp [fetchRetryRun, hok] at h
        omega
      · simp [fetchRetryRun, hok, hm] at h
        rcases h with h | h
        · omega
        · have := ih (start + 1) i h
          omega

/-- Every wait in the retry trace is the fixed 5000 ms — no backoff. -/
theorem fetchRetryRun_wait_fixed (ok : Nat → Bool) :
    ∀ (n start m : Nat), Ev.wait m ∈ (fetchRetryRun ok start n).2 → m = 5000 := by
  intro n
  induction n with
  | zero => intro start m h; simp [fetchRetryRun] at h
  | succ k ih =>
    intro start m h
    by_cases hok : ok start
    · simp [fetchRetryRun, hok] at h
    · by_cases hk : k = 0
      · subst hk; simp [fetchRetryRun, hok] at h
      · simp [fetchRetryRun, hok, hk] at h
        rcases h with h | h
        · exact h
        · exact ih (start + 1) m h

/-- Recogniser for poll-attempt events. -/
def isPoll : Ev → Bool
  | Ev.pollAttempt _ => true
  | _ => false

/-- The retry trace holds at most `n` attempts. -/
theorem fetchRetryRun_attempt_count (ok : Nat → Bool) :
    ∀ (n start : Nat), ((fetchRetryRun ok start n).2.countP isPoll) ≤ n := by
  intro n
  induction n with
  | zero => intro start; simp [fetchRetryRun]
  | succ k ih =>
    intro start
    by_cases hok : ok start
    · simp [fetchRetryRun, hok, List.countP_cons, isPoll]
    · by_cases hk : k = 0
      · subst hk; simp [fetchRetryRun, hok, List.countP_cons, isPoll]
      · have := ih (start + 1)
        simp [fetchRetryRun, hok, hk, List.countP_cons, isPoll]
        omega

/-- An oracle failing on the whole window exhausts the budget: the run
throws (`none`) after exactly `n` attempts. -/
theorem fetchRetryRun_exhaust_count (ok : Nat → Bool) :
    ∀ (n start : Nat), (∀ i, i < n → ok (start + i) = false) →
      (fetchRetryRun ok start n).1 = none ∧
      (fetchRetryRun ok start n).2.countP isPoll = n := by
  intro n
  induction n with
  | zero => intro start _; simp [fetchRetryRun]
  | succ k ih =>
    intro start hfail
    have h0 : ok start = false := by simpa using hfail 0 (by omega)
    by_cases hk : k = 0
    · subst hk
      simp [fetchRetryRun, h0, List.countP_cons, isPoll]
    · have hrec := ih (start + 1) (fun i hi => by
        have := hfail (i + 1) (by omega)
        have harith : start + (i + 1) = start + 1 + i := by omega
        rwa [harith] at this)
      simp [fetchRetryRun, h0, hk, List.countP_cons, isPoll, hrec.1, hrec.2]

/-- The first success inside the window is returned. -/
theorem fetchRetryRun_first_success (ok : Nat → Bool) :
    ∀ (k n start : Nat), k < n → (∀ i, i < k → ok (start + i) = false) →
      ok (start + k) = true →
      (fetchRetryRun ok start n).1 = some (start + k) := by
  intro k
  induction k with
  | zero =>
    intro n start hn _ hok
    match n, hn with
    | m + 1, _ =>
      simp only [Nat.add_zero] at hok
      simp [fetchRetryRun, hok]
  | succ j ih =>
    intro n start hn hfail hok
    match n, hn with
    | m + 1, hn =>
      have h0 : ok start = false := by simpa using hfail 0 (by omega)
      have hm : m ≠ 0 := by omega
      have hrec := ih m (start + 1) (by omega)
        (fun i hi => by
          have := hfail (i + 1) (by omega)
          have harith : start + (i + 1) = start + 1 + i := by omega
          rwa [harith] at this)
        (by
          have harith : start + (j + 1) = start + 1 + j := by omega
          rwa [harith] at hok)
      have harith2 : start + 1 + j = start + (j + 1) := by omega
      rw [harith2] at hrec
      simp [fetchRetryRun, h0, hm, hrec]

/-- The run only consults the oracle inside its attempt window. -/
theorem fetchRetryRun_congr :
    ∀ (n start : Nat) (g g2 : Nat → Bool),
      (∀ i, start ≤ i → i < start + n → g i = g2 i) →
      fetchRetryRun g start n = fetchRetryRun g2 start n := by
  intro n
  induction n with
  | zero => intro start g g2 _; rfl
  | succ k ih =>
    intro start g g2 hagree
    have h0 : g start = g2 start := hagree start (by omega) (by omega)
    have hrec := ih (start + 1) g g2 (fun i h1 h2 => hagree i (by omega) (by omega))
    simp only [fetchRetryRun, h0, hrec]

/-- No timer is ever cleared during the retry loop. -/
theorem timerStop_not_in_fetch (ok : Nat → Bool) :
    ∀ (n start : Nat), Ev.timerStop ∉ (fetchRetryRun ok start n).2 := by
  intro n
  induction n with
  | zero => intro start; simp [fetchRetryRun]
  | succ k ih =>
    intro start
    by_cases hok : ok start
    · simp [fetchRetryRun, hok]
    · by_cases hk : k = 0
      · subst hk; simp [fetchRetryRun, hok]
      · simp [fetchRetryRun, hok, hk]
        exact ih (start + 1)

/-- No timer is ever cleared while showing the dashboard either. -/
theorem timerStop_not_in_show (message : String) :
    Ev.timerStop ∉ showDashboardEvents message := by
  by_cases h : message = "" <;> simp [showDashboardEvents, h]

/-- C2 counterexample: from the freshly loaded dashboard, a shutdown click
leaves the refresh interval registered — the lifecycle is `ShuttingDown`
(≠ `Running`) yet refresh ticks are still enabled, and the handler's trace
contains no timer stop before (or after) sending the command. -/
theorem scheduler_never_stopped_cex :
    (shutdownHandler "WetSpec is shutting down. Goodbye!" onloadState).lifecycle
        ≠ LifecycleState.Running ∧
    tickEnabled (shutdownHandler "WetSpec is shutting down. Goodbye!" onloadState)
        = true ∧
    Ev.timerStop ∉ shutdownHandlerEvents := by
  refine ⟨by decide, by decide, by decide⟩

/-- C2 corrected: the controller never stops the scheduler. `hideDashboard`
only hides the UI; neither handler clears the refresh interval (`timerStop`
occurs in no trace), the restart/shutdown command is sent with any
registered timer still active, and tick-enabledness is unchanged by a
shutdown and never decreased by a restart — so refresh ticks stay possible
in every non-`Running` state, including the terminal ones. -/
theorem scheduler_never_stopped (s : DashState) (ok : Nat → Bool)
    (ackMsg restartAck okMsg : String) :
    (shutdownHandler ackMsg s).timers = s.timers ∧
    (shutdownHandler ackMsg s).lifecycle = LifecycleState.ShuttingDown ∧
    tickEnabled (shutdownHandler ackMsg s) = tickEnabled s ∧
    Ev.timerStop ∉ shutdownHandlerEvents ∧
    Ev.timerStop ∉ restartHandlerEvents ok okMsg ∧
    s.timers ≤ (restartHandler ok restartAck okMsg s).timers := by
  refine ⟨rfl, rfl, rfl, by decide, ?_, ?_⟩
  · cases hr : (fetchRetryRun ok 0 10).1 with
    | none =>
      simp [restartHandlerEvents, hr, timerStop_not_in_fetch ok 10 0]
    | some k =>
      simp [restartHandlerEvents, hr, timerStop_not_in_fetch ok 10 0,
        timerStop_not_in_show okMsg]
  · cases hr : (fetchRetryRun ok 0 10).1 with
    | none => simp [restartHandler, hr, hideDashboard]
    | some k => simp [restartHandler, hr, showDashboard, hideDashboard]

/-- C4: after the restart acknowledgement and the settle delay, reconnection
polling makes at most 10 attempts (every attempt index is below 10, an
exhausted run makes exactly 10, and the outcome only depends on the first
10 oracle answers — there is never an 11th attempt), with the fixed 5000 ms
wait between attempts and no backoff; an oracle failing 9 times then
succeeding drives `restartHandler` to `Running` with the dashboard resumed,
while an oracle failing 10 times drives it to the terminal `Failed` state
showing the fatal manual-intervention message. -/
theorem reconnect_retry_policy (ok okAll : Nat → Bool)
    (restartAck okMsg : String) (s : DashState) (i m : Nat)
    (hi : Ev.pollAttempt i ∈ (fetchRetryRun ok 0 10).2)
    (hm : Ev.wait m ∈ (fetchRetryRun ok 0 10).2)
    (h9fail : ∀ j, j < 9 → ok j = false) (h9ok : ok 9 = true)
    (hallfail : ∀ j, j < 10 → okAll j = false)
    (g g2 : Nat → Bool) (hagree : ∀ j, j < 10 → g j = g2 j) :
    i < 10 ∧ m = 5000 ∧
    ((fetchRetryRun ok 0 10).2.countP isPoll) ≤ 10 ∧
    (restartHandler ok restartAck okMsg s).lifecycle = LifecycleState.Running ∧
    (restartHandler ok restartAck okMsg s).visible = true ∧
    (restartHandler ok restartAck okMsg s).timers = s.timers + 1 ∧
    (restartHandler okAll restartAck okMsg s).lifecycle = LifecycleState.Failed ∧
    (restartHandler okAll restartAck okMsg s).message = fatalMessage ∧
    (restartHandler okAll restartAck okMsg s).visible = false ∧
    ((fetchRetryRun okAll 0 10).2.countP isPoll) = 10 ∧
    fetchRetryRun g 0 10 = fetchRetryRun g2 0 10 := by
  have hsucc := fetchRetryRun_first_success ok 9 10 0 (by omega)
    (fun j hj => by simpa using h9fail j hj) (by simpa using h9ok)
  have hex := fetchRetryRun_exhaust_count okAll 10 0
    (fun j hj => by simpa using hallfail j hj)
  refine ⟨(fetchRetryRun_attempt_range ok 10 0 i hi).2,
    fetchRetryRun_wait_fixed ok 10 0 m hm,
    fetchRetryRun_attempt_count ok 10 0, ?_, ?_, ?_, ?_, ?_, ?_, hex.2,
    fetchRetryRun_congr 10 0 g g2 (fun j h1 h2 => hagree j (by omega))⟩
  · simp [restartHandler, hsucc, showDashboard, hideDashboard]
  · simp [restartHandler, hsucc, showDashboard, hideDashboard]
  · simp [restartHandler, hsucc, showDashboard, hideDashboard]
  · simp [restartHandler, hex.1, hideDashboard]
  · simp [restartHandler, hex.1, hideDashboard]
  · simp [restartHandler, hex.1, hideDashboard]

/-- C4 witness: the retry policy checked on concrete oracles — one failing
nine times then succeeding (reaches `Running`), one always failing
(reaches `Failed` after exactly 10 attempts), and two oracles agreeing on
the first 10 indices but not on index 10 (identical runs). -/
theorem reconnect_retry_policy_check :
    (0 : Nat) < 10 ∧ (5000 : Nat) = 5000 ∧
    ((fetchRetryRun (fun j => decide (9 ≤ j)) 0 10).2.countP isPoll) ≤ 10 ∧
    (restartHandler (fun j => decide (9 ≤ j)) "a" "b" onloadState).lifecycle
        = LifecycleState.Running ∧
    (restartHandler (fun j => decide (9 ≤ j)) "a" "b" onloadState).visible = true ∧
    (restartHandler (fun j => decide (9 ≤ j)) "a" "b" onloadState).timers
        = onloadState.timers + 1 ∧
    (restartHandler (fun _ => false) "a" "b" onloadState).lifecycle
        = LifecycleState.Failed ∧
    (restartHandler (fun _ => false) "a" "b" onloadState).message = fatalMessage ∧
    (restartHandler (fun _ => false) "a" "b" onloadState).visible = false ∧
    ((fetchRetryRun (fun _ => false) 0 10).2.countP isPoll) = 10 ∧
    fetchRetryRun (fun _ => true) 0 10 = fetchRetryRun (fun j => decide (j < 11)) 0 10 :=
  reconnect_retry_policy (fun j => decide (9 ≤ j)) (fun _ => false) "a" "b"
    onloadState 0 5000 (by decide) (by decide) (by decide) (by decide) (by decide)
    (fun _ => true) (fun j => decide (j < 11)) (by decide)

/-- C5 counterexample: a successful restart-and-reconnect cycle re-enters
`showDashboard`, which registers a second interval on top of the one from
page load — two periodic refresh timers are then active, refuting "at most
one periodic refresh timer is ever active". -/
theorem double_timer_cex :
    (restartHandler (fun _ => true) "WetSpec is restarting. Please wait..."
        "Welcome to WetSpec." onloadState).timers = 2 := by decide

/-- C5 corrected: a second start is not rejected — `showDashboard` always
registers one more refresh interval, a restart whose reconnection succeeds
does the same, and from the loaded dashboard a successful
restart-and-reconnect cycle leaves two periodic refresh timers active. -/
theorem show_dashboard_always_starts_timer (s : DashState)
    (message restartAck okMsg : String) (ok : Nat → Bool)
    (h : (fetchRetryRun ok 0 10).1.isSome = true) :
    (showDashboard message s).timers = s.timers + 1 ∧
    (restartHandler ok restartAck okMsg s).timers = s.timers + 1 ∧
    (restartHandler (fun _ => true) restartAck okMsg onloadState).timers = 2 := by
  refine ⟨rfl, ?_, rfl⟩
  cases hr : (fetchRetryRun ok 0 10).1 with
  | none => rw [hr] at h; simp at h
  | some k => simp [restartHandler, hr, showDashboard, hideDashboard]

/-- C5 witness: the corrected behaviour evaluated at the always-successful
oracle from the loaded dashboard. -/
theorem show_dashboard_always_starts_timer_check :
    (showDashboard "m" onloadState).timers = onloadState.timers + 1 ∧
    (restartHandler (fun _ => true) "a" "b" onloadState).timers
        = onloadState.timers + 1 ∧
    (restartHandler (fun _ => true) "a" "b" onloadState).timers = 2 :=
  show_dashboard_always_starts_timer onloadState "m" "a" "b" (fun _ => true)
    (by decide)

/-- Pointwise description of the mapped raw series. -/
theorem getPoint_map (f : DataRecord → DataPoint) :
    ∀ (data : List DataRecord) (i : Nat), i < data.length →
      getPoint (data.map f) i = f (getRecord data i) := by
  intro data
  induction data with
  | nil => intro i h; simp at h
  | cons d rest ih =>
    intro i h
    cases i with
    | zero => simp [getPoint, getRecord]
    | succ j =>
      have hj : j < rest.length := by simpa using h
      simp only [List.map_cons, getPoint, getRecord, List.getD_cons_succ]
      exact ih j hj

theorem jsAdd_none_right (a : Option ℚ) : jsAdd a none = none := by
  cases a <;> rfl

theorem jsAdd_none_left (b : Option ℚ) : jsAdd none b = none := by
  cases b <;> rfl

theorem foldl_jsAdd_none (f : Nat → Option ℚ) :
    ∀ (l : List Nat), l.foldl (fun a k => jsAdd a (f k)) none = none := by
  intro l
  induction l with
  | nil => rfl
  | cons a t ih =>
    simp only [List.foldl_cons, jsAdd_none_left]
    exact ih

theorem foldl_jsAdd_mem_none (f : Nat → Option ℚ) :
    ∀ (l : List Nat) (acc : Option ℚ) (k : Nat), k ∈ l → f k = none →
      l.foldl (fun a j => jsAdd a (f j)) acc = none := by
  intro l
  induction l with
  | nil => intro acc k hk _; simp at hk
  | cons a t ih =>
    intro acc k hk hfk
    rcases List.mem_cons.mp hk with h | h
    · subst h
      simp only [List.foldl_cons, hfk, jsAdd_none_right]
      exact foldl_jsAdd_none f t
    · simp only [List.foldl_cons]
      exact ih _ k h hfk

/-- A `NaN` sample makes its own moving average `NaN`: the window always
contains position `point` itself (the `i = 0` summand). -/
theorem simpleMovingAverage_none (dataset : List DataPoint) (point np : Nat)
    (h : (getPoint dataset point).y = none) :
    simpleMovingAverage dataset point np = none := by
  unfold simpleMovingAverage
  cases np with
  | zero => simp [jsDiv]
  | succ m =>
    have h0 : (0 : Nat) ∈ List.range (m + 1) := by simp
    have hfold := foldl_jsAdd_mem_none (fun k => (getPoint dataset (point - k)).y)
      (List.range (m + 1)) (some 0) 0 h0 (by simpa using h)
    simp only [hfold, jsDiv]
    simp

/-- A `NaN` raw value reappears as `NaN` at the same position of the
smoothed series. -/
theorem calculateSMADataset_none (dataset : List DataPoint) (i : Nat)
    (hi : i < dataset.length) (h : (getPoint dataset i).y = none) :
    (getPoint (calculateSMADataset dataset) i).y = none := by
  rw [calculateSMADataset_getPoint dataset i hi]
  unfold smaStep
  by_cases h0 : i = 0
  · subst h0; simp [h]
  · by_cases h12 : i < 12 <;>
      simp [h0, h12, simpleMovingAverage_none dataset i _ h]

/-- C8: a record whose numeric field fails to parse does not crash the
refresh pipeline (the embedding is a total function): the failed parse's
`NaN` (`none`) is the record's value in the raw series, it propagates to the
same position of the smoothed series, and the renderer receives those series
as-is — the smoothed inputs are literally `calculateSMADataset` of the raw
series with no special handling anywhere. -/
theorem nan_propagation (dataT dataH : List DataRecord) (i j : Nat)
    (hi : i < dataT.length) (hj : j < dataH.length)
    (htemp : parseFloatJs (getRecord dataT i).temp = none)
    (hhum : parseIntJs (getRecord dataH j).humidity = none) :
    (getPoint (updateChartModel dataT).tempData i).y = none ∧
    (getPoint (updateChartModel dataT).tempSMA i).y = none ∧
    (getPoint (updateChartModel dataH).humidityData j).y = none ∧
    (getPoint (updateChartModel dataH).humiditySMA j).y = none ∧
    (updateChartModel dataT).tempSMA
      = calculateSMADataset (updateChartModel dataT).tempData ∧
    (updateChartModel dataH).humiditySMA
      = calculateSMADataset (updateChartModel dataH).humidityData := by
  have htD : (updateChartModel dataT).tempData
      = dataT.map (fun v => ({ x := v.time, y := parseFloatJs v.temp } : DataPoint)) := rfl
  have hhD : (updateChartModel dataH).humidityData
      = dataH.map
          (fun v => ({ x := v.time, y := parseIntJs v.humidity } : DataPoint)) := rfl
  have ht1 : (getPoint (updateChartModel dataT).tempData i).y = none := by
    rw [htD, getPoint_map _ dataT i hi]
    simpa using htemp
  have hh1 : (getPoint (updateChartModel dataH).humidityData j).y = none := by
    rw [hhD, getPoint_map _ dataH j hj]
    simpa using hhum
  have hiT : i < (updateChartModel dataT).tempData.length := by
    rw [htD]; simpa using hi
  have hjH : j < (updateChartModel dataH).humidityData.length := by
    rw [hhD]; simpa using hj
  refine ⟨ht1, ?_, hh1, ?_, rfl, rfl⟩
  · exact calculateSMADataset_none _ i hiT ht1
  · exact calculateSMADataset_none _ j hjH hh1

/-- C8 witness: a malformed temperature string and a malformed humidity
string, each in a one-record payload, propagate as `NaN` end to end. -/
theorem nan_propagation_check :
    (getPoint (updateChartModel [⟨0, "abc", "50"⟩]).tempData 0).y = none ∧
    (getPoint (updateChartModel [⟨0, "abc", "50"⟩]).tempSMA 0).y = none ∧
    (getPoint (updateChartModel [⟨0, "70", "xyz"⟩]).humidityData 0).y = none ∧
    (getPoint (updateChartModel [⟨0, "70", "xyz"⟩]).humiditySMA 0).y = none ∧
    (updateChartModel [⟨0, "abc", "50"⟩]).tempSMA
      = calculateSMADataset (updateChartModel [⟨0, "abc", "50"⟩]).tempData ∧
    (updateChartModel [⟨0, "70", "xyz"⟩]).humiditySMA
      = calculateSMADataset (updateChartModel [⟨0, "70", "xyz"⟩]).humidityData :=
  nan_propagation [⟨0, "abc", "50"⟩] [⟨0, "70", "xyz"⟩] 0 0 (by decide) (by decide)
    (by decide) (by decide)

/-- C10: the two quantities are parsed asymmetrically — the temperature
series is built with `parseFloat` (fractional part preserved) and the
humidity series with `parseInt` (integer truncation), so a record with
humidity string `"45.7"` enters the raw humidity series as `45`; the
smoothed humidity series and the renderer consume exactly that truncated
raw series. -/
theorem parse_asymmetry (data : List DataRecord) (i : Nat)
    (hi : i < data.length) (hhum : (getRecord data i).humidity = "45.7") :
    (getPoint (updateChartModel data).tempData i).y
      = parseFloatJs (getRecord data i).temp ∧
    (getPoint (updateChartModel data).humidityData i).y
      = parseIntJs (getRecord data i).humidity ∧
    parseFloatJs "45.7" = some (457 / 10) ∧
    parseIntJs "45.7" = some 45 ∧
    (getPoint (updateChartModel data).humidityData i).y = some 45 ∧
    (updateChartModel data).humiditySMA
      = calculateSMADataset (updateChartModel data).humidityData := by
  have htD : (updateChartModel data).tempData
      = data.map (fun v => ({ x := v.time, y := parseFloatJs v.temp } : DataPoint)) := rfl
  have hhD : (updateChartModel data).humidityData
      = data.map
          (fun v => ({ x := v.time, y := parseIntJs v.humidity } : DataPoint)) := rfl
  have hfloat : parseFloatJs "45.7" = some (457 / 10) := by
    have h : parseFloatJs "45.7"
        = some ((1 : ℚ) * ((parseNatDigits ['4', '5'] : ℚ)
            + (parseNatDigits ['7'] : ℚ)
              / (10 : ℚ) ^ (['7'] : List Char).length)) := rfl
    have h45 : parseNatDigits ['4', '5'] = 45 := rfl
    have h7 : parseNatDigits ['7'] = 7 := rfl
    rw [h, h45, h7]
    norm_num
  have hint : parseIntJs "45.7" = some 45 := by
    have h : parseIntJs "45.7" = some ((1 : ℚ) * (parseNatDigits ['4', '5'] : ℚ)) := rfl
    have h45 : parseNatDigits ['4', '5'] = 45 := rfl
    rw [h, h45]
    norm_num
  have hh1 : (getPoint (updateChartModel data).humidityData i).y
      = parseIntJs (getRecord data i).humidity := by
    rw [hhD, getPoint_map _ data i hi]
  refine ⟨?_, hh1, hfloat, hint, ?_, rfl⟩
  · rw [htD, getPoint_map _ data i hi]
  · rw [hh1, hhum, hint]

/-- C10 witness: a concrete record with temperature and humidity both
`"45.7"` — the humidity side truncates to `45`. -/
theorem parse_asymmetry_check :
    (getPoint (updateChartModel [⟨0, "45.7", "45.7"⟩]).tempData 0).y
      = parseFloatJs (getRecord [⟨0, "45.7", "45.7"⟩] 0).temp ∧
    (getPoint (updateChartModel [⟨0, "45.7", "45.7"⟩]).humidityData 0).y
      = parseIntJs (getRecord [⟨0, "45.7", "45.7"⟩] 0).humidity ∧
    parseFloatJs "45.7" = some (457 / 10) ∧
    parseIntJs "45.7" = some 45 ∧
    (getPoint (updateChartModel [⟨0, "45.7", "45.7"⟩]).humidityData 0).y = some 45 ∧
    (updateChartModel [⟨0, "45.7", "45.7"⟩]).humiditySMA
      = calculateSMADataset (updateChartModel [⟨0, "45.7", "45.7"⟩]).humidityData :=
  parse_asymmetry [⟨0, "45.7", "45.7"⟩] 0 (by decide) (by decide)
